import Mathlib

/-!
Verification of the notes frontend (src/notes_frontend/src/App.js): a shallow
embedding of the notes API adapter (payload normalization, error extraction)
and of the UI state orchestrator (selection, mode, draft, busy and error
flags), with theorems checking the specification claims.
-/

namespace NotesApp

/-- JavaScript values as they appear in JSON payloads.  Numbers are modelled
as integers: the payloads this application exchanges carry integral numbers
only, and none of the verified properties depend on fractional values. -/
inductive Json where
  | null : Json
  | bool (b : Bool) : Json
  | num (n : Int) : Json
  | str (s : String) : Json
  | arr (elems : List Json) : Json
  | obj (fields : List (String × Json)) : Json
deriving Repr

mutual

/-- Conversion String(v) of JavaScript: null prints as "null", booleans as
"true"/"false", numbers in decimal, arrays join their elements with commas
(null elements become empty), plain objects print "[object Object]". -/
def jstr : Json → String
  | .null => "null"
  | .bool true => "true"
  | .bool false => "false"
  | .num n => toString n
  | .str s => s
  | .arr xs => String.intercalate "," (jstrList xs)
  | .obj _ => "[object Object]"

/-- Stringification of array elements under Array.prototype.toString. -/
def jstrList : List Json → List String
  | [] => []
  | Json.null :: js => "" :: jstrList js
  | j :: js => jstr j :: jstrList js

end

/-- Truthiness of a JavaScript value. -/
def truthy : Json → Bool
  | .null => false
  | .bool b => b
  | .num n => n != 0
  | .str s => s != ""
  | .arr _ => true
  | .obj _ => true

/-- Lookup of a key in an object field list (first occurrence governs; the
embedding keeps object keys unique). -/
def lookupField : List (String × Json) → String → Option Json
  | [], _ => none
  | (k, v) :: rest, key => if k = key then some v else lookupField rest key

/-- Property access raw[key]; none models the undefined result, which is what
optional chaining and plain access on the shapes reached by this code give
for every non-object value. -/
def getF : Json → String → Option Json
  | .obj fields, key => lookupField fields key
  | _, _ => none

/-- Collapse of a nullish value (undefined or null) to none. -/
def jnn : Option Json → Option Json
  | some Json.null => none
  | some v => some v
  | none => none

/-- Nullish coalescing a ?? d against a literal default. -/
def nvl (a : Option Json) (d : Json) : Json :=
  match jnn a with
  | some v => v
  | none => d

/-- Nullish coalescing a ?? b between two possibly-undefined operands. -/
def jsNullishOr (a b : Option Json) : Option Json :=
  match jnn a with
  | some v => some v
  | none => b

/-- Whitespace characters removed by String.prototype.trim (ASCII range). -/
def jsWs (c : Char) : Bool :=
  c = ' ' || c = '\t' || c = '\n' || c = '\r' || c = '\x0b' || c = '\x0c'

/-- Removal of trailing whitespace from a character list. -/
def trimEnd (l : List Char) : List Char :=
  l.foldr (fun c acc => if jsWs c && acc.isEmpty then [] else c :: acc) []

/-- Behaviour of String.prototype.trim: strip whitespace from both ends. -/
def jsTrim (s : String) : String :=
  String.mk (trimEnd (s.data.dropWhile jsWs))

/-- Canonical UI note shape produced by the adapter. -/
structure UiNote where
  id : String
  title : String
  content : String
  updatedAt : Option String := none
  createdAt : Option String := none
deriving DecidableEq, Repr

/-- Timestamp inclusion: the resolved candidate value is stringified and kept
only when truthy, mirroring the conditional object spread in toUiNote. -/
def tsField (v : Option Json) : Option String :=
  match v with
  | some x => if truthy x then some (jstr x) else none
  | none => none

/-- Test raw && typeof raw === "object" of JavaScript (arrays included,
null excluded). -/
def isObjectLike : Json → Bool
  | .arr _ => true
  | .obj _ => true
  | _ => false

/-- Embedding of toUiNote (App.js lines 444-460): convert various note shapes
to the consistent UI note object. -/
def toUiNote (raw : Json) : UiNote :=
  if isObjectLike raw then
    { id := jstr (nvl (getF raw "id") (nvl (getF raw "_id") (nvl (getF raw "noteId") (.str ""))))
      title := jsTrim (jstr (nvl (getF raw "title") (nvl (getF raw "name") (.str ""))))
      content := jstr (nvl (getF raw "content") (nvl (getF raw "body") (nvl (getF raw "text") (.str ""))))
      updatedAt := tsField (jsNullishOr (getF raw "updatedAt") (jsNullishOr (getF raw "updated_at") (jsNullishOr (getF raw "modifiedAt") (getF raw "modified_at"))))
      createdAt := tsField (jsNullishOr (getF raw "createdAt") (getF raw "created_at")) }
  else { id := "", title := "", content := "" }

/-- Resolution of a canonical field from an ordered candidate key list: the
first candidate whose value is present and non-null wins.  This follows the
amended wording of the normalization claim. -/
def resolveField (raw : Json) : List String → Option Json
  | [] => none
  | k :: ks =>
    match jnn (getF raw k) with
    | some v => some v
    | none => resolveField raw ks

/-- Normalization as described by the amended claim: each field resolves from
the first present non-null candidate, timestamps are kept exactly when the
resolved value is truthy, and non-object raw values give the empty note. -/
def toUiNoteAmended (raw : Json) : UiNote :=
  if isObjectLike raw then
    { id := jstr ((resolveField raw ["id", "_id", "noteId"]).getD (.str ""))
      title := jsTrim (jstr ((resolveField raw ["title", "name"]).getD (.str "")))
      content := jstr ((resolveField raw ["content", "body", "text"]).getD (.str ""))
      updatedAt := tsField (resolveField raw ["updatedAt", "updated_at", "modifiedAt", "modified_at"])
      createdAt := tsField (resolveField raw ["createdAt", "created_at"]) }
  else { id := "", title := "", content := "" }

/-- Re-encoding of a normalized note as the JavaScript object literal built by
toUiNote, with the timestamp fields spread in only when present. -/
def uiNoteToJson (n : UiNote) : Json :=
  .obj ([("id", Json.str n.id), ("title", Json.str n.title), ("content", Json.str n.content)]
    ++ (match n.updatedAt with
        | some s => [("updatedAt", Json.str s)]
        | none => [])
    ++ (match n.createdAt with
        | some s => [("createdAt", Json.str s)]
        | none => []))

/-- Numeric value of a decimal digit character. -/
def digitVal (c : Char) : Nat := c.toNat - 48

/-- Count of days in a month of the proleptic Gregorian calendar. -/
def daysInMonth (y m : Nat) : Nat :=
  if m = 2 then
    if y % 4 = 0 && (y % 100 != 0 || y % 400 = 0) then 29 else 28
  else if m = 4 || m = 6 || m = 9 || m = 11 then 30
  else 31

/-- Days from the Unix epoch to the given civil date (Gregorian), negative for
dates before 1970. -/
def daysFromCivil (y m d : Int) : Int :=
  let y2 : Int := if m ≤ 2 then y - 1 else y
  let era : Int := (if 0 ≤ y2 then y2 else y2 - 399) / 400
  let yoe : Int := y2 - era * 400
  let mp : Int := if 2 < m then m - 3 else m + 9
  let doy : Int := (153 * mp + 2) / 5 + d - 1
  let doe : Int := yoe * 365 + yoe / 4 - yoe / 100 + doy
  era * 146097 + doe - 719468

/-- Modelled from the host environment: Date.parse restricted to the ISO
date-only form YYYY-MM-DD, which parses as midnight UTC and yields
milliseconds since the Unix epoch (negative before 1970).  Every other input
is treated as unparseable (NaN); the verified statements only evaluate this
model on ISO date strings, where it agrees with the host. -/
def dateParse (s : String) : Option Int :=
  match s.data with
  | [y1, y2, y3, y4, c1, m1, m2, c2, d1, d2] =>
    if y1.isDigit && y2.isDigit && y3.isDigit && y4.isDigit
        && m1.isDigit && m2.isDigit && d1.isDigit && d2.isDigit
        && c1 = '-' && c2 = '-' then
      let y : Nat := digitVal y1 * 1000 + digitVal y2 * 100 + digitVal y3 * 10 + digitVal y4
      let m : Nat := digitVal m1 * 10 + digitVal m2
      let d : Nat := digitVal d1 * 10 + digitVal d2
      if 1 ≤ m && m ≤ 12 && 1 ≤ d && d ≤ daysInMonth y m then
        some (86400000 * daysFromCivil (Int.ofNat y) (Int.ofNat m) (Int.ofNat d))
      else none
    else none
  | _ => none

/-- Embedding of the timestamp key used by sortNotes (App.js lines 17-21):
updatedAt falling back to createdAt under JavaScript truthiness, parsed as a
date, with unparseable or missing values mapped to 0. -/
def toTs (n : UiNote) : Int :=
  let v : Option String :=
    match n.updatedAt with
    | some s => if s ≠ "" then some s else n.createdAt
    | none => n.createdAt
  match v with
  | some s =>
    if s ≠ "" then
      match dateParse s with
      | some t => t
      | none => 0
    else 0
  | none => 0

/-- Sort relation of sortNotes: the comparator (a, b) => toTs(b) - toTs(a)
accepts a before b exactly when toTs b is not greater than toTs a. -/
def tsGE (a b : UiNote) : Prop := toTs b ≤ toTs a

instance : DecidableRel tsGE := fun a b => inferInstanceAs (Decidable (toTs b ≤ toTs a))

instance : IsTotal UiNote tsGE :=
  ⟨fun a b => (Int.le_total (toTs b) (toTs a)).imp id id⟩

instance : IsTrans UiNote tsGE :=
  ⟨fun _ _ _ hab hbc => le_trans hbc hab⟩

/-- Embedding of sortNotes (App.js lines 16-23).  Array.prototype.sort with a
consistent comparator produces the stable sorted order, here realised by
insertion sort under the tsGE relation (most recent first). -/
def sortNotes (notes : List UiNote) : List UiNote :=
  List.insertionSort tsGE notes

/-- Interaction mode of the orchestrator. -/
inductive Mode where
  | view : Mode
  | edit : Mode
  | create : Mode
deriving DecidableEq, Repr

/-- Transient draft buffer. -/
structure Draft where
  title : String
  content : String
deriving DecidableEq, Repr

/-- Empty draft constant (App.js line 9). -/
def EMPTY_DRAFT : Draft := { title := "", content := "" }

/-- Orchestrator state: the state variables held by the App component. -/
structure AppState where
  notes : List UiNote
  selectedId : Option String
  mode : Mode
  draft : Draft
  touched : Bool
  isBusy : Bool
  error : String
  status : String
deriving DecidableEq, Repr

/-- Adapter calls issued by an operation, recorded so that theorems can state
that a path performs no network call. -/
inductive Call where
  | list : Call
  | create (title content : String) : Call
  | update (id title content : String) : Call
  | delete (id : String) : Call
deriving DecidableEq, Repr

/-- Outcome of an asynchronous create or update call: the normalized note the
adapter resolves with, or the message of the error it rejects with. -/
inductive SaveOutcome where
  | ok (note : UiNote) : SaveOutcome
  | err (msg : String) : SaveOutcome

/-- Outcome of an asynchronous delete call. -/
inductive DelOutcome where
  | ok : DelOutcome
  | err (msg : String) : DelOutcome

/-- Embedding of the selectedNote memo (App.js lines 39-42): null when the
selection is falsy (no selection, or the empty-string id), otherwise the
first note with the selected id. -/
def selectedNote (s : AppState) : Option UiNote :=
  match s.selectedId with
  | none => none
  | some sid =>
    if sid = "" then none
    else s.notes.find? (fun n => n.id = sid)

/-- Embedding of the titleError memo (App.js lines 44-49). -/
def titleErrorOf (touched : Bool) (title : String) : String :=
  if !touched then ""
  else if jsTrim title = "" then "Title is required."
  else if 80 < (jsTrim title).length then "Title must be 80 characters or less."
  else ""

/-- Embedding of canSave (App.js line 197): no visible title error, non-empty
trimmed title, and no request in flight. -/
def canSave (s : AppState) : Bool :=
  titleErrorOf s.touched s.draft.title = "" && jsTrim s.draft.title ≠ "" && !s.isBusy

/-- Render-time dependencies of the draft-sync effect (App.js line 87):
the mode and the id of the resolved selected note. -/
def effectDeps (s : AppState) : Mode × Option String :=
  (s.mode, (selectedNote s).map UiNote.id)

/-- Embedding of the draft-sync effect (App.js lines 82-87): after a
transition whose rendered dependencies changed, a view-mode state with a
resolved selection gets its draft mirrored from the selected note and the
touched flag cleared. -/
def applyEffect (prev next : AppState) : AppState :=
  if effectDeps next ≠ effectDeps prev ∧ next.mode = Mode.view then
    match selectedNote next with
    | some n => { next with draft := { title := n.title, content := n.content }, touched := false }
    | none => next
  else next

/-- State of the component at mount, with the initial load already started
(App.js lines 28-37 and 55-58): empty collection, no selection, view mode,
busy flag raised and the loading status shown. -/
def boot0 : AppState :=
  { notes := [], selectedId := none, mode := Mode.view, draft := EMPTY_DRAFT,
    touched := false, isBusy := false, error := "", status := "" }

/-- State during the initial load: busy, loading status shown. -/
def loading0 : AppState :=
  { boot0 with isBusy := true, status := "Loading notes..." }

/-- Resolution of the initial load with the list returned by listNotes
(App.js lines 60-65 and 70-72): notes sorted, first note selected when any
exists, followed by the draft-sync effect. -/
def loadApply (items : List UiNote) : AppState :=
  let sorted := sortNotes items
  let st : AppState :=
    { loading0 with
      notes := sorted
      selectedId := (match sorted with
        | [] => loading0.selectedId
        | n :: _ => some n.id)
      status := ""
      isBusy := false }
  applyEffect loading0 st

/-- Rejection of the initial load (App.js lines 66-72). -/
def loadErrApply (msg : String) : AppState :=
  { loading0 with error := msg, status := "", isBusy := false }

/-- Embedding of handleSelect (App.js lines 104-109) followed by the
draft-sync effect. -/
def selectOp (id : String) (s : AppState) : AppState :=
  applyEffect s { s with error := "", selectedId := some id, mode := Mode.view, touched := false }

/-- Embedding of handleCreate (App.js lines 96-101). -/
def createOp (s : AppState) : AppState :=
  applyEffect s { s with error := "", mode := Mode.create, draft := EMPTY_DRAFT, touched := false }

/-- Embedding of handleStartEdit (App.js lines 112-118). -/
def editOp (s : AppState) : AppState :=
  match selectedNote s with
  | none => s
  | some sel =>
    applyEffect s
      { s with
        error := "", mode := Mode.edit,
        draft := { title := sel.title, content := sel.content }, touched := false }

/-- Embedding of handleCancel (App.js lines 121-130). -/
def cancelOp (s : AppState) : AppState :=
  applyEffect s
    { s with
      error := "", mode := Mode.view,
      draft := (match selectedNote s with
        | some sel => { title := sel.title, content := sel.content }
        | none => EMPTY_DRAFT),
      touched := false }

/-- Typing into the title input (App.js line 342); the input enforces a
120-character limit at the DOM level. -/
def typeTitleOp (t : String) (s : AppState) : AppState :=
  applyEffect s { s with draft := { s.draft with title := t } }

/-- Typing into the content textarea (App.js line 356). -/
def typeContentOp (c : String) (s : AppState) : AppState :=
  applyEffect s { s with draft := { s.draft with content := c } }

/-- Embedding of handleSave (App.js lines 133-161) with the adapter call
resolved atomically: the returned state and the list of adapter calls made. -/
def handleSaveRaw (out : SaveOutcome) (s : AppState) : AppState × List Call :=
  let s0 := { s with error := "", touched := true }
  let title := jsTrim s.draft.title
  if title = "" then (s0, [])
  else
    match s.mode with
    | Mode.create =>
      match out with
      | SaveOutcome.ok created =>
        ({ s0 with
           notes := sortNotes (created :: s.notes), selectedId := some created.id,
           mode := Mode.view, status := "Saved.", isBusy := false },
         [Call.create title s.draft.content])
      | SaveOutcome.err m =>
        ({ s0 with error := m, isBusy := false }, [Call.create title s.draft.content])
    | Mode.edit =>
      match selectedNote s with
      | some sel =>
        match out with
        | SaveOutcome.ok updated =>
          ({ s0 with
             notes := sortNotes (s.notes.map (fun n => if n.id = updated.id then updated else n)),
             mode := Mode.view, status := "Updated.", isBusy := false },
           [Call.update sel.id title s.draft.content])
        | SaveOutcome.err m =>
          ({ s0 with error := m, isBusy := false }, [Call.update sel.id title s.draft.content])
      | none => ({ s0 with isBusy := false }, [])
    | Mode.view => ({ s0 with isBusy := false }, [])

/-- User-level save action: the form submit handler (App.js lines 331-335)
runs handleSave only when canSave holds and otherwise just marks the title
field as touched (the save button is likewise disabled when canSave fails).
The draft-sync effect runs afterwards. -/
def submitSaveE (out : SaveOutcome) (s : AppState) : AppState × List Call :=
  if canSave s then
    let r := handleSaveRaw out s
    (applyEffect s r.1, r.2)
  else
    (applyEffect s { s with touched := true }, [])

/-- Embedding of handleDelete (App.js lines 164-195) with the confirmation
answer and the adapter outcome as parameters, followed by the draft-sync
effect; returns the new state and the adapter calls made. -/
def handleDeleteE (id : String) (confirmed : Bool) (out : DelOutcome) (s : AppState) :
    AppState × List Call :=
  let s0 := { s with error := "" }
  if !confirmed then (applyEffect s s0, [])
  else
    match out with
    | DelOutcome.ok =>
      let remaining := s.notes.filter (fun n => decide (n.id ≠ id))
      let s1 := { s0 with notes := sortNotes remaining, isBusy := false, status := "Deleted." }
      let s2 :=
        if s.selectedId = some id then
          match remaining.head? with
          | some first =>
            { s1 with
              selectedId := some first.id, mode := Mode.view,
              draft := (if first.id ≠ "" then { title := first.title, content := first.content }
                       else EMPTY_DRAFT) }
          | none =>
            { s1 with selectedId := none, mode := Mode.view, draft := EMPTY_DRAFT }
        else s1
      (applyEffect s s2, [Call.delete id])
    | DelOutcome.err m =>
      (applyEffect s { s0 with error := m, isBusy := false }, [Call.delete id])

/-- Reachable orchestrator states: the component boots into the initial load,
which resolves or rejects exactly once, after which the user may select,
create, edit, cancel, type, save and delete under the guards the rendered
interface enforces (buttons disabled while busy, rows only for notes in the
collection, the form only outside view mode). -/
inductive Reachable : AppState → Prop where
  | boot : Reachable loading0
  | loadOk (items : List UiNote) : Reachable (loadApply items)
  | loadErr (msg : String) : Reachable (loadErrApply msg)
  | select {s : AppState} (id : String) : Reachable s →
      id ∈ s.notes.map UiNote.id → Reachable (selectOp id s)
  | create {s : AppState} : Reachable s → s.isBusy = false → Reachable (createOp s)
  | edit {s : AppState} : Reachable s → s.isBusy = false → s.mode = Mode.view →
      Reachable (editOp s)
  | cancel {s : AppState} : Reachable s → s.isBusy = false → s.mode ≠ Mode.view →
      Reachable (cancelOp s)
  | typeTitle {s : AppState} (t : String) : Reachable s → s.isBusy = false →
      s.mode ≠ Mode.view → t.length ≤ 120 → Reachable (typeTitleOp t s)
  | typeContent {s : AppState} (c : String) : Reachable s → s.isBusy = false →
      s.mode ≠ Mode.view → Reachable (typeContentOp c s)
  | save {s : AppState} (out : SaveOutcome) : Reachable s → s.isBusy = false →
      s.mode ≠ Mode.view → Reachable (submitSaveE out s).1
  | delete {s : AppState} (id : String) (confirmed : Bool) (out : DelOutcome) :
      Reachable s → s.isBusy = false → id ∈ s.notes.map UiNote.id →
      Reachable (handleDeleteE id confirmed out s).1

/-- Test for the presence of a key, mirroring the JavaScript in operator on
the object shapes this code applies it to. -/
def hasKey (p : Json) (key : String) : Bool :=
  match p with
  | .obj fields => (lookupField fields key).isSome
  | _ => false

/-- Embedding of unwrapData (App.js lines 434-437): an object payload with a
data key is replaced by that value, everything else passes through. -/
def unwrapData (payload : Json) : Json :=
  match payload with
  | .obj fields =>
    if hasKey (.obj fields) "data" then (lookupField fields "data").getD .null
    else .obj fields
  | p => p

/-- Embedding of the payload processing in listNotes (App.js lines 508-518):
unwrap, locate the element array (bare, items, notes, in that order), then
normalize and drop elements with an empty id. -/
def listNotesPayload (payload : Json) : List UiNote :=
  let unwrapped := unwrapData payload
  let items : List Json :=
    match unwrapped with
    | .arr xs => xs
    | u =>
      match getF u "items" with
      | some (.arr xs) => xs
      | _ =>
        match getF u "notes" with
        | some (.arr xs) => xs
        | _ => []
  (items.map toUiNote).filter (fun n => n.id ≠ "")

/-- Element extraction as worded by the read-all claim: the bare array
payload, or the array wrapped under the data, items or notes key checked in
that precedence order (the data key, when present, unwraps its value first,
as the claim scenario with a nested data.items array shows), and no elements
for any other shape. -/
def claimExtract (payload : Json) : List Json :=
  let u := if hasKey payload "data" then (getF payload "data").getD .null else payload
  if let .arr xs := u then xs
  else if let some (.arr xs) := getF u "items" then xs
  else if let some (.arr xs) := getF u "notes" then xs
  else []

/-- Whitespace accepted between JSON tokens. -/
def jsonWs (c : Char) : Bool :=
  c = ' ' || c = '\t' || c = '\n' || c = '\r'

/-- Skip inter-token whitespace. -/
def skipWs (cs : List Char) : List Char := cs.dropWhile jsonWs

/-- Decoding of a JSON string escape character (the \u form and unknown
escapes are outside the modelled subset). -/
def escChar (c : Char) : Option Char :=
  if c = '"' then some '"'
  else if c = '\\' then some '\\'
  else if c = '/' then some '/'
  else if c = 'b' then some '\x08'
  else if c = 'f' then some '\x0c'
  else if c = 'n' then some '\n'
  else if c = 'r' then some '\r'
  else if c = 't' then some '\t'
  else none

/-- Parse the body of a JSON string after the opening quote. -/
def parseStrBody : Nat → List Char → Option (String × List Char)
  | 0, _ => none
  | fuel + 1, cs =>
    match cs with
    | [] => none
    | '"' :: rest => some ("", rest)
    | '\\' :: e :: rest => do
      let c ← escChar e
      let (s, r) ← parseStrBody fuel rest
      pure (String.mk (c :: s.data), r)
    | c :: rest =>
      if c.toNat < 32 then none
      else do
        let (s, r) ← parseStrBody fuel rest
        pure (String.mk (c :: s.data), r)

/-- Parse a non-empty run of decimal digits into a natural number, rejecting
a leading zero followed by further digits as JSON does. -/
def parseDigits (cs : List Char) : Option (Nat × List Char) :=
  let ds := cs.takeWhile Char.isDigit
  let rest := cs.drop ds.length
  if ds.isEmpty then none
  else if 1 < ds.length && ds.head? = some '0' then none
  else some (ds.foldl (fun acc c => acc * 10 + digitVal c) 0, rest)

/-- Insert a key-value pair into an object field list with the
last-occurrence-wins value placement of JSON.parse. -/
def objUpd : List (String × Json) → String → Json → List (String × Json)
  | [], k, v => [(k, v)]
  | (k1, v1) :: rest, k, v =>
    if k1 = k then (k1, v) :: rest else (k1, v1) :: objUpd rest k v

mutual

/-- Parse a JSON value.  Together with the functions below this is modelled
from the host environment: JSON.parse restricted to integral numbers and to
string escapes other than \u; inputs outside the subset are treated as
unparseable. -/
def parseVal : Nat → List Char → Option (Json × List Char)
  | 0, _ => none
  | fuel + 1, cs0 =>
    match skipWs cs0 with
    | 'n' :: 'u' :: 'l' :: 'l' :: r => some (.null, r)
    | 't' :: 'r' :: 'u' :: 'e' :: r => some (.bool true, r)
    | 'f' :: 'a' :: 'l' :: 's' :: 'e' :: r => some (.bool false, r)
    | '"' :: r => (parseStrBody fuel r).map (fun p => (.str p.1, p.2))
    | '-' :: r => do
      let (n, rest) ← parseDigits r
      if rest.head? = some '.' || rest.head? = some 'e' || rest.head? = some 'E' then none
      else pure (.num (-(n : Int)), rest)
    | '[' :: r => (parseArrItems fuel r).map (fun p => (.arr p.1, p.2))
    | '{' :: r => (parseObjItems fuel r []).map (fun p => (.obj p.1, p.2))
    | cs => do
      let (n, rest) ← parseDigits cs
      if rest.head? = some '.' || rest.head? = some 'e' || rest.head? = some 'E' then none
      else pure (.num (n : Int), rest)

/-- Parse the items of a JSON array after the opening bracket. -/
def parseArrItems : Nat → List Char → Option (List Json × List Char)
  | 0, _ => none
  | fuel + 1, cs =>
    match skipWs cs with
    | ']' :: r => some ([], r)
    | cs1 => do
      let (v, r1) ← parseVal fuel cs1
      match skipWs r1 with
      | ',' :: r2 => do
        let (vs, r3) ← parseArrItems fuel r2
        if vs.isEmpty && (skipWs r2).head? = some ']' then none else pure (v :: vs, r3)
      | ']' :: r2 => pure ([v], r2)
      | _ => none

/-- Parse the members of a JSON object after the opening brace, accumulating
fields with later duplicate keys overwriting earlier ones. -/
def parseObjItems : Nat → List Char → List (String × Json) →
    Option (List (String × Json) × List Char)
  | 0, _, _ => none
  | fuel + 1, cs, acc =>
    match skipWs cs with
    | '}' :: r => if acc.isEmpty then some ([], r) else none
    | '"' :: r => do
      let (k, r1) ← parseStrBody fuel r
      match skipWs r1 with
      | ':' :: r2 => do
        let (v, r3) ← parseVal fuel r2
        let acc1 := objUpd acc k v
        match skipWs r3 with
        | ',' :: r4 => parseObjItems fuel r4 acc1
        | '}' :: r4 => pure (acc1, r4)
        | _ => none
      | _ => none
    | _ => none

end

/-- Parse of a complete JSON text, demanding that only whitespace remains. -/
def jsonParse (s : String) : Option Json :=
  match parseVal (s.length + 1) s.data with
  | some (j, rest) => if (skipWs rest).isEmpty then some j else none
  | none => none

/-- Substring test, as String.prototype.includes. -/
def strIncludes (hay pat : String) : Bool :=
  go hay.data
where
  go : List Char → Bool
  | [] => pat.data.isPrefixOf ([] : List Char)
  | c :: cs => pat.data.isPrefixOf (c :: cs) || go cs

/-- Relevant observable parts of a fetch response: success flag, numeric
status, the content-type header value and the raw body text. -/
structure JsResponse where
  ok : Bool
  status : Nat
  contentType : String
  body : String

/-- Embedding of parseJsonOrText (App.js lines 419-425): a JSON-indicating
content type parses the body (none when the body is outside the modelled
JSON subset, standing for the host-specific rejection of res.json), anything
else resolves with the body text. -/
def parseJsonOrText (contentType body : String) : Option (Json ⊕ String) :=
  if strIncludes contentType "application/json" then (jsonParse body).map Sum.inl
  else some (Sum.inr body)

/-- Truthiness of a possibly-undefined value. -/
def jtruthy (v : Option Json) : Bool :=
  match v with
  | some j => truthy j
  | none => false

/-- Logical-or a || b over possibly-undefined values. -/
def jsOr (a b : Option Json) : Option Json :=
  if jtruthy a then a else b

/-- Embedding of the message extraction in request (App.js lines 495-498): a
string payload (plain text, or a JSON body that decodes to a string) is the
message itself; otherwise the truthy message field, else the truthy error
field, else the generic text carrying the numeric status; the chosen value
is stringified by the Error constructor. -/
def errMessageOf (payload : Json ⊕ String) (status : Nat) : String :=
  match payload with
  | .inr s => s
  | .inl (.str s) => s
  | .inl j =>
    let cand := if truthy j then jsOr (getF j "message") (getF j "error") else some j
    if jtruthy cand then jstr (cand.getD .null)
    else "Request failed (" ++ toString status ++ ")"

/-- Result of a request: the resolved payload, or the single thrown error
carrying its message. -/
inductive ReqResult where
  | ok (payload : Json ⊕ String) : ReqResult
  | threw (msg : String) : ReqResult

/-- Embedding of request (App.js lines 483-502) from the response onward:
parse the body per content type, then either resolve with the payload or
throw one error with the extracted message on a non-success status.  The
none result stands for a body outside the modelled JSON subset, whose
host-specific parse rejection is not modelled. -/
def request (res : JsResponse) : Option ReqResult :=
  match parseJsonOrText res.contentType res.body with
  | none => none
  | some payload =>
    if res.ok then some (ReqResult.ok payload)
    else some (ReqResult.threw (errMessageOf payload res.status))

/-! Supporting lemmas about trimming. -/

theorem trimEnd_cons (c : Char) (cs : List Char) :
    trimEnd (c :: cs) = if jsWs c && (trimEnd cs).isEmpty then [] else c :: trimEnd cs := rfl

theorem trimEnd_idem (l : List Char) : trimEnd (trimEnd l) = trimEnd l := by
  induction l with
  | nil => rfl
  | cons c cs ih =>
    by_cases h : jsWs c && (trimEnd cs).isEmpty
    · simp [trimEnd_cons, h]
      rfl
    · simp only [trimEnd_cons, h, if_false, Bool.false_eq_true, if_neg]
      simp [trimEnd_cons, ih, h]

theorem dropWhile_head_false {α : Type} (p : α → Bool) (l : List α) (c : α)
    (h : (l.dropWhile p).head? = some c) : p c = false := by
  induction l with
  | nil => simp [List.dropWhile] at h
  | cons a as ih =>
    by_cases hp : p a
    · rw [List.dropWhile_cons, if_pos hp] at h
      exact ih h
    · rw [List.dropWhile_cons, if_neg hp] at h
      simp only [List.head?_cons, Option.some.injEq] at h
      subst h
      simpa using hp

theorem dropWhile_of_head_false {α : Type} (p : α → Bool) (l : List α)
    (h : ∀ c, l.head? = some c → p c = false) : l.dropWhile p = l := by
  cases l with
  | nil => rfl
  | cons a as =>
    have := h a rfl
    simp [List.dropWhile_cons, this]

theorem trimEnd_head (l : List Char) (c : Char) (h : (trimEnd l).head? = some c) :
    l.head? = some c := by
  cases l with
  | nil => simp [trimEnd] at h
  | cons a as =>
    rw [trimEnd_cons] at h
    by_cases hc : jsWs a && (trimEnd as).isEmpty
    · simp [hc] at h
    · simp only [hc, if_neg, Bool.false_eq_true, if_false, List.head?_cons,
        Option.some.injEq] at h
      simp [h]

theorem jsTrim_idem (s : String) : jsTrim (jsTrim s) = jsTrim s := by
  unfold jsTrim
  have hdata : (String.mk (trimEnd (s.data.dropWhile jsWs))).data
      = trimEnd (s.data.dropWhile jsWs) := rfl
  rw [hdata]
  have hdw : (trimEnd (s.data.dropWhile jsWs)).dropWhile jsWs
      = trimEnd (s.data.dropWhile jsWs) := by
    apply dropWhile_of_head_false
    intro c hc
    exact dropWhile_head_false jsWs s.data c (trimEnd_head _ c hc)
  rw [hdw, trimEnd_idem]

/-! Supporting lemmas about field resolution. -/

theorem resolveField_getD (raw : Json) (k : String) (ks : List String) (d : Json) :
    (resolveField raw (k :: ks)).getD d = nvl (getF raw k) ((resolveField raw ks).getD d) := by
  cases h : jnn (getF raw k) <;> simp [resolveField, nvl, h]

theorem resolveField_single (raw : Json) (k : String) :
    resolveField raw [k] = jnn (getF raw k) := by
  cases h : jnn (getF raw k) <;> simp [resolveField, h]

theorem tsField_jnn (v : Option Json) : tsField (jnn v) = tsField v := by
  cases v with
  | none => rfl
  | some j => cases j <;> rfl

theorem tsField_resolve (raw : Json) (k : String) (ks : List String) (b : Option Json)
    (hb : tsField b = tsField (resolveField raw ks)) :
    tsField (jsNullishOr (getF raw k) b) = tsField (resolveField raw (k :: ks)) := by
  cases h : jnn (getF raw k) <;> simp [jsNullishOr, resolveField, h, hb]

/-- C1: the claim reads normalization as taking the first syntactically
present candidate field and as including a timestamp whenever a candidate
key is present.  The code instead skips null-valued candidates (nullish
coalescing) and includes a timestamp only when the resolved value is truthy.
This concrete raw object has an id field (value null) and an updatedAt field
(value the empty string), yet normalizes to the empty id and to no updatedAt
at all, while the claim demands id "null" and an updatedAt entry. -/
def cRawC1 : Json := .obj [("id", Json.null), ("updatedAt", Json.str "")]

/-- C1 counterexample: both candidate fields are present in the raw value,
yet the id resolves past the null to the empty default and the updatedAt
timestamp is not included in the result. -/
theorem C1_counterexample :
    getF cRawC1 "id" = some Json.null
    ∧ getF cRawC1 "updatedAt" = some (Json.str "")
    ∧ jstr Json.null = "null"
    ∧ toUiNote cRawC1 = { id := "", title := "", content := "" } :=
  ⟨rfl, rfl, rfl, rfl⟩

/-- C1 amended: normalization resolves each canonical field from the first
candidate whose value is present and non-null (id from id, _id, noteId,
stringified with the empty string as default; title from title, name,
stringified and trimmed; content from content, body, text, stringified), a
timestamp is stringified and included exactly when its resolved candidate
value is truthy, and every non-object raw value normalizes to the note with
empty id, title and content. -/
theorem C1_normalization_amended (raw : Json) : toUiNote raw = toUiNoteAmended raw := by
  unfold toUiNote toUiNoteAmended
  by_cases h : isObjectLike raw
  · simp only [h, if_true]
    have hid : (resolveField raw ["id", "_id", "noteId"]).getD (Json.str "")
        = nvl (getF raw "id") (nvl (getF raw "_id") (nvl (getF raw "noteId") (Json.str ""))) := by
      rw [resolveField_getD, resolveField_getD, resolveField_getD]
      rfl
    have htitle : (resolveField raw ["title", "name"]).getD (Json.str "")
        = nvl (getF raw "title") (nvl (getF raw "name") (Json.str "")) := by
      rw [resolveField_getD, resolveField_getD]
      rfl
    have hcontent : (resolveField raw ["content", "body", "text"]).getD (Json.str "")
        = nvl (getF raw "content") (nvl (getF raw "body") (nvl (getF raw "text") (Json.str ""))) := by
      rw [resolveField_getD, resolveField_getD, resolveField_getD]
      rfl
    have h4 : tsField (getF raw "modified_at") = tsField (resolveField raw ["modified_at"]) := by
      rw [resolveField_single, tsField_jnn]
    have h3 := tsField_resolve raw "modifiedAt" ["modified_at"] _ h4
    have h2 := tsField_resolve raw "updated_at" ["modifiedAt", "modified_at"] _ h3
    have h1 := tsField_resolve raw "updatedAt" ["updated_at", "modifiedAt", "modified_at"] _ h2
    have hcr : tsField (getF raw "created_at") = tsField (resolveField raw ["created_at"]) := by
      rw [resolveField_single, tsField_jnn]
    have hcreated := tsField_resolve raw "createdAt" ["created_at"] _ hcr
    rw [hid, htitle, hcontent, ← h1, ← hcreated]
  · simp [h]

/-- C2: witnesses for the sorting counterexample.  cNoTs carries no
timestamp at all; c1969 carries a parseable timestamp one day before the
Unix epoch. -/
def cNoTs : UiNote := { id := "a", title := "", content := "" }

/-- C2: a note whose updatedAt parses to a negative millisecond value. -/
def c1969 : UiNote := { id := "b", title := "", content := "", updatedAt := some "1969-12-31" }

/-- C2 counterexample: the timestampless note is keyed to 0, not to the
oldest possible value, so it sorts before a note carrying the earlier
(pre-1970, hence negative) timestamp, which the claim forbids. -/
theorem C2_counterexample :
    cNoTs.updatedAt = none
    ∧ cNoTs.createdAt = none
    ∧ c1969.updatedAt = some "1969-12-31"
    ∧ toTs c1969 < toTs cNoTs
    ∧ sortNotes [cNoTs, c1969] = [cNoTs, c1969] :=
  ⟨rfl, rfl, rfl, by decide, by decide⟩

/-- C2 amended: the sort stores the collection in order of non-increasing
activity key (a permutation of the input), where the key of a note is its
parsed updatedAt falling back to createdAt; a note with neither timestamp is
keyed to the Unix epoch 0, so it sorts after every later-keyed note but
before notes with pre-1970 keys, rather than as the oldest possible value. -/
theorem C2_sort_amended (l : List UiNote) (n : UiNote)
    (h1 : n.updatedAt = none) (h2 : n.createdAt = none) :
    List.Sorted tsGE (sortNotes l) ∧ (sortNotes l).Perm l ∧ toTs n = 0 :=
  ⟨List.sorted_insertionSort tsGE l, List.perm_insertionSort tsGE l, by simp [toTs, h1, h2]⟩

/-- C2 amended witness at a concrete collection and a concrete
timestampless note. -/
theorem C2_sort_amended_witness :
    List.Sorted tsGE (sortNotes [cNoTs, c1969])
    ∧ (sortNotes [cNoTs, c1969]).Perm [cNoTs, c1969]
    ∧ toTs cNoTs = 0 :=
  C2_sort_amended [cNoTs, c1969] cNoTs rfl rfl

/-- The title produced by normalization is already trimmed. -/
theorem toUiNote_title_trimmed (raw : Json) :
    jsTrim (toUiNote raw).title = (toUiNote raw).title := by
  unfold toUiNote
  by_cases h : isObjectLike raw
  · simp [h, jsTrim_idem]
  · simp only [h]
    rfl

/-- Re-normalizing an encoded note restores it, provided its title is
trimmed and no included timestamp is the empty string. -/
theorem toUiNote_encode (n : UiNote) (ht : jsTrim n.title = n.title)
    (hu : n.updatedAt ≠ some "") (hc : n.createdAt ≠ some "") :
    toUiNote (uiNoteToJson n) = n := by
  obtain ⟨i, t, c, u, cr⟩ := n
  simp only at ht hu hc
  cases u with
  | none =>
    cases cr with
    | none =>
      simp [uiNoteToJson, toUiNote, isObjectLike, getF, lookupField, nvl, jnn,
        jsNullishOr, tsField, jstr, ht]
    | some s2 =>
      have hs2 : s2 ≠ "" := fun h => hc (by rw [h])
      simp [uiNoteToJson, toUiNote, isObjectLike, getF, lookupField, nvl, jnn,
        jsNullishOr, tsField, jstr, truthy, ht, hs2]
  | some s1 =>
    have hs1 : s1 ≠ "" := fun h => hu (by rw [h])
    cases cr with
    | none =>
      simp [uiNoteToJson, toUiNote, isObjectLike, getF, lookupField, nvl, jnn,
        jsNullishOr, tsField, jstr, truthy, ht, hs1]
    | some s2 =>
      have hs2 : s2 ≠ "" := fun h => hc (by rw [h])
      simp [uiNoteToJson, toUiNote, isObjectLike, getF, lookupField, nvl, jnn,
        jsNullishOr, tsField, jstr, truthy, ht, hs1, hs2]

/-- C9: raw value on which normalization is not idempotent.  The empty array
is truthy, so the timestamp is included, but it stringifies to the empty
string, which the second normalization pass drops. -/
def cRawC9 : Json := .obj [("updatedAt", Json.arr [])]

/-- C9 counterexample: normalizing this raw value yields a note with an
empty-string updatedAt, and normalizing that already-normalized note drops
the updatedAt field, so the fields are not the same. -/
theorem C9_counterexample :
    toUiNote cRawC9 = { id := "", title := "", content := "", updatedAt := some "" }
    ∧ toUiNote (uiNoteToJson (toUiNote cRawC9)) ≠ toUiNote cRawC9 := by
  constructor
  · rfl
  · decide

/-- C9 amended: normalization is idempotent on every raw value whose
normalized form does not include an empty-string timestamp (in particular on
every raw object whose timestamp candidates are absent, null, or values that
stringify non-trivially): re-normalizing the already-normalized note yields
exactly the same id, title, content, updatedAt and createdAt. -/
theorem C9_idempotent_amended (raw : Json)
    (hu : (toUiNote raw).updatedAt ≠ some "")
    (hc : (toUiNote raw).createdAt ≠ some "") :
    toUiNote (uiNoteToJson (toUiNote raw)) = toUiNote raw :=
  toUiNote_encode (toUiNote raw) (toUiNote_title_trimmed raw) hu hc

/-- C9 amended witness at a concrete raw note object. -/
theorem C9_idempotent_amended_witness :
    (toUiNote (.obj [("id", Json.str "7"), ("title", Json.str " Hi "),
      ("updatedAt", Json.str "2020-01-01")])).updatedAt ≠ some ""
    ∧ toUiNote (uiNoteToJson (toUiNote (.obj [("id", Json.str "7"), ("title", Json.str " Hi "),
        ("updatedAt", Json.str "2020-01-01")])))
      = toUiNote (.obj [("id", Json.str "7"), ("title", Json.str " Hi "),
        ("updatedAt", Json.str "2020-01-01")]) :=
  ⟨by decide,
   C9_idempotent_amended (.obj [("id", Json.str "7"), ("title", Json.str " Hi "),
     ("updatedAt", Json.str "2020-01-01")]) (by decide) (by decide)⟩

/-- C4: listNotes processes a successful read-all payload by taking the bare
array, or the array under the data, items or notes key in that precedence
order (a present data key unwraps its value first, as in the claim
scenario), yields no elements for any other shape, normalizes every element
and drops those whose normalized id is empty; in particular the nested
data.items payload of the claim scenario yields exactly the single note
with id "1", title "A" and content "x". -/
theorem C4_listNotes :
    (∀ payload : Json,
      listNotesPayload payload
        = ((claimExtract payload).map toUiNote).filter (fun n => n.id ≠ ""))
    ∧ listNotesPayload (.obj [("data", .obj [("items", .arr [.obj [("_id", Json.str "1"),
        ("name", Json.str "A"), ("body", Json.str "x")]])])])
      = [{ id := "1", title := "A", content := "x" }] := by
  refine ⟨?_, rfl⟩
  intro payload
  have hu : (if hasKey payload "data" then (getF payload "data").getD Json.null else payload)
      = unwrapData payload := by
    cases payload <;> simp [unwrapData, hasKey, getF]
  unfold listNotesPayload claimExtract
  rw [hu]
  cases hw : unwrapData payload with
  | null => rfl
  | bool b => rfl
  | num n => rfl
  | str s => rfl
  | arr xs => rfl
  | obj fields =>
    cases hitems : lookupField fields "items" with
    | none => simp [getF, hitems]
    | some j => cases j <;> simp [getF, hitems]

/-- C8: concrete non-2xx response of the claim scenario. -/
def cResC8 : JsResponse :=
  { ok := false, status := 422, contentType := "application/json",
    body := "\x7b\"error\":\"title too long\"\x7d" }

/-- C8: a call whose response has a non-success status throws a single error
whose message is, in order: the plain-text body when the body was not parsed
as JSON, else the JSON object body's truthy message field, else its truthy
error field, else the generic message carrying the numeric status; the
scenario response with body containing only an error field surfaces exactly
the message "title too long". -/
theorem C8_error_message (res : JsResponse) (payload : Json ⊕ String)
    (hok : res.ok = false)
    (hp : parseJsonOrText res.contentType res.body = some payload) :
    request res = some (ReqResult.threw (errMessageOf payload res.status))
    ∧ (∀ s, payload = Sum.inr s → errMessageOf payload res.status = s)
    ∧ (∀ j m, payload = Sum.inl j → isObjectLike j = true → getF j "message" = some m →
        truthy m = true → errMessageOf payload res.status = jstr m)
    ∧ (∀ j e, payload = Sum.inl j → isObjectLike j = true →
        jtruthy (getF j "message") = false → getF j "error" = some e → truthy e = true →
        errMessageOf payload res.status = jstr e)
    ∧ (∀ fields, payload = Sum.inl (Json.obj fields) →
        jtruthy (getF (Json.obj fields) "message") = false →
        jtruthy (getF (Json.obj fields) "error") = false →
        errMessageOf payload res.status = "Request failed (" ++ toString res.status ++ ")")
    ∧ request cResC8 = some (ReqResult.threw "title too long") := by
  refine ⟨by simp [request, hp, hok], ?_, ?_, ?_, ?_, rfl⟩
  · intro s h
    subst h
    rfl
  · intro j m hj hobj hmsg htr
    subst hj
    cases j with
    | str s => simp [isObjectLike] at hobj
    | null => simp [isObjectLike] at hobj
    | bool b => simp [isObjectLike] at hobj
    | num k => simp [isObjectLike] at hobj
    | arr xs => simp [getF] at hmsg
    | obj fields =>
      simp only [getF] at hmsg
      simp [errMessageOf, jsOr, jtruthy, getF, hmsg, htr]
      rw [show truthy (Json.obj fields) = true from rfl]
      simp [htr]
  · intro j e hj hobj hmsg herr htr
    subst hj
    cases j with
    | str s => simp [isObjectLike] at hobj
    | null => simp [isObjectLike] at hobj
    | bool b => simp [isObjectLike] at hobj
    | num k => simp [isObjectLike] at hobj
    | arr xs => simp [getF] at herr
    | obj fields =>
      simp only [getF] at hmsg herr
      simp [errMessageOf, jsOr, getF, hmsg, herr]
      rw [show truthy (Json.obj fields) = true from rfl]
      simp [jtruthy, htr]
  · intro fields hj hmsg herr
    subst hj
    simp only [getF] at hmsg herr
    simp [errMessageOf, jsOr, getF, hmsg, herr]
    rw [show truthy (Json.obj fields) = true from rfl]
    simp [herr]

/-- C8 witness at the concrete scenario response. -/
theorem C8_error_message_witness :
    request cResC8
      = some (ReqResult.threw
          (errMessageOf (Sum.inl (Json.obj [("error", Json.str "title too long")])) 422))
    ∧ errMessageOf (Sum.inl (Json.obj [("error", Json.str "title too long")])) 422
      = "title too long" := by
  have h := C8_error_message cResC8
    (Sum.inl (Json.obj [("error", Json.str "title too long")])) rfl rfl
  exact ⟨h.1, rfl⟩

/-! Supporting lemmas about the draft-sync effect. -/

theorem applyEffect_notes (p n : AppState) : (applyEffect p n).notes = n.notes := by
  unfold applyEffect
  split
  · cases selectedNote n <;> rfl
  · rfl

theorem applyEffect_selectedId (p n : AppState) : (applyEffect p n).selectedId = n.selectedId := by
  unfold applyEffect
  split
  · cases selectedNote n <;> rfl
  · rfl

theorem applyEffect_mode (p n : AppState) : (applyEffect p n).mode = n.mode := by
  unfold applyEffect
  split
  · cases selectedNote n <;> rfl
  · rfl

theorem applyEffect_isBusy (p n : AppState) : (applyEffect p n).isBusy = n.isBusy := by
  unfold applyEffect
  split
  · cases selectedNote n <;> rfl
  · rfl

theorem applyEffect_same (p n : AppState) (h : effectDeps n = effectDeps p) :
    applyEffect p n = n := by
  unfold applyEffect
  rw [if_neg]
  intro hcon
  exact hcon.1 h

theorem applyEffect_of_mode (p n : AppState) (h : n.mode ≠ Mode.view) :
    applyEffect p n = n := by
  unfold applyEffect
  rw [if_neg]
  intro hcon
  exact h hcon.2

theorem applyEffect_of_none (p n : AppState) (h : selectedNote n = none) :
    applyEffect p n = n := by
  unfold applyEffect
  split
  · rw [h]
  · rfl

/-- Evaluation of the declined delete path: only the error message changes. -/
theorem handleDelete_declined (s : AppState) (id : String) (out : DelOutcome) :
    handleDeleteE id false out s = ({ s with error := "" }, []) := by
  have h : applyEffect s { s with error := "" } = { s with error := "" } :=
    applyEffect_same s _ rfl
  unfold handleDeleteE
  simp [h]

/-- C10: declining the delete confirmation makes no adapter call and leaves
the collection, selection, mode, draft, touched and busy flags and the
status untouched; the only change is that the displayed error message is
cleared, because the handler clears it before showing the prompt. -/
theorem C10_declined_delete (s : AppState) (id : String) (out : DelOutcome) :
    handleDeleteE id false out s = ({ s with error := "" }, []) :=
  handleDelete_declined s id out

/-- C3: a title of 81 identical characters, over the 80-character limit. -/
def cLongTitle : String := String.mk (List.replicate 81 'a')

/-- C3: create-mode state with an over-long title that has never been
blurred, so the touched flag is still clear — reachable by typing 81
characters and submitting the form with the Enter key. -/
def cC3State : AppState :=
  { notes := [], selectedId := none, mode := Mode.create,
    draft := { title := cLongTitle, content := "" },
    touched := false, isBusy := false, error := "", status := "" }

/-- C3: note the server responds with in the failing run. -/
def cCreatedNote : UiNote := { id := "9", title := "t", content := "c" }

/-- C3: evaluation of the code at the failing input.  The trimmed title
exceeds 80 characters, so the validation rule fails and a save attempt must
be rejected without an adapter call; but handleSave only rejects empty
titles, and with the title field untouched the titleError memo is empty, so
canSave holds, the form submit reaches handleSave, createNote is called with
the over-long title, and the save completes into view mode. -/
theorem C3_code_behavior :
    80 < (jsTrim cC3State.draft.title).length
    ∧ titleErrorOf true cC3State.draft.title = "Title must be 80 characters or less."
    ∧ canSave cC3State = true
    ∧ (submitSaveE (SaveOutcome.ok cCreatedNote) cC3State).2 = [Call.create cLongTitle ""]
    ∧ (submitSaveE (SaveOutcome.ok cCreatedNote) cC3State).1.mode = Mode.view := by
  refine ⟨by decide, by decide, by decide, by decide, by decide⟩

/-- C6: a create-mode state with a valid draft whose title field has not
been touched yet. -/
def cC6State : AppState :=
  { notes := [{ id := "n1", title := "T", content := "C" }], selectedId := some "n1",
    mode := Mode.create, draft := { title := "T", content := "" },
    touched := false, isBusy := false, error := "", status := "" }

/-- C6 counterexample: when the create call fails, the resulting state
additionally has the touched flag raised, so it differs from the prior state
by more than the displayed message and the cleared busy flag, which the
claim says are the only changes. -/
theorem C6_counterexample :
    (submitSaveE (SaveOutcome.err "boom") cC6State).1
      = { cC6State with error := "boom", touched := true }
    ∧ (submitSaveE (SaveOutcome.err "boom") cC6State).1 ≠ { cC6State with error := "boom" }
    ∧ cC6State.touched = false := by
  refine ⟨by decide, by decide, rfl⟩

/-- C6 amended: a save or delete whose adapter call fails has the error
caught and converted to the displayed message; the note collection, the
selection, the mode, the draft and the status are left untouched and the
busy flag ends cleared; the only further state change is that a failed save
marks the title field as touched. -/
theorem handleSaveRaw_err_create (s : AppState) (m : String)
    (ht : ¬(jsTrim s.draft.title = "")) (hmode : s.mode = Mode.create) :
    handleSaveRaw (SaveOutcome.err m) s
      = ({ s with error := m, touched := true, isBusy := false },
         [Call.create (jsTrim s.draft.title) s.draft.content]) := by
  unfold handleSaveRaw
  rw [if_neg ht, hmode]

theorem handleSaveRaw_err_edit (s : AppState) (m : String) (sel : UiNote)
    (ht : ¬(jsTrim s.draft.title = "")) (hmode : s.mode = Mode.edit)
    (hsel : selectedNote s = some sel) :
    handleSaveRaw (SaveOutcome.err m) s
      = ({ s with error := m, touched := true, isBusy := false },
         [Call.update sel.id (jsTrim s.draft.title) s.draft.content]) := by
  unfold handleSaveRaw
  rw [if_neg ht, hmode, hsel]

theorem C6_failure_amended (s : AppState) (m : String) (id : String)
    (hc : canSave s = true)
    (hm : s.mode = Mode.create ∨ (s.mode = Mode.edit ∧ selectedNote s ≠ none)) :
    ((submitSaveE (SaveOutcome.err m) s).1
        = { s with error := m, touched := true, isBusy := false }
      ∧ (submitSaveE (SaveOutcome.err m) s).2 ≠ [])
    ∧ (handleDeleteE id true (DelOutcome.err m) s).1 = { s with error := m, isBusy := false } := by
  have hc2 := hc
  simp only [canSave, Bool.and_eq_true, decide_eq_true_eq] at hc2
  have htitle : ¬(jsTrim s.draft.title = "") := hc2.1.2
  have hmv : s.mode ≠ Mode.view := by
    rcases hm with hmode | ⟨hmode, _⟩ <;> rw [hmode] <;> intro hv <;> exact Mode.noConfusion hv
  have hr : handleSaveRaw (SaveOutcome.err m) s
      = ({ s with error := m, touched := true, isBusy := false },
         (handleSaveRaw (SaveOutcome.err m) s).2)
      ∧ (handleSaveRaw (SaveOutcome.err m) s).2 ≠ [] := by
    rcases hm with hmode | ⟨hmode, hsel⟩
    · rw [handleSaveRaw_err_create s m htitle hmode]
      exact ⟨rfl, by simp⟩
    · cases h2 : selectedNote s with
      | none => exact absurd h2 hsel
      | some sel =>
        rw [handleSaveRaw_err_edit s m sel htitle hmode h2]
        exact ⟨rfl, by simp⟩
  constructor
  · constructor
    · unfold submitSaveE
      rw [if_pos hc]
      show applyEffect s (handleSaveRaw (SaveOutcome.err m) s).1
          = { s with error := m, touched := true, isBusy := false }
      rw [congrArg Prod.fst hr.1]
      exact applyEffect_of_mode _ _ (by simpa using hmv)
    · unfold submitSaveE
      rw [if_pos hc]
      show (handleSaveRaw (SaveOutcome.err m) s).2 ≠ []
      exact hr.2
  · unfold handleDeleteE
    have h : applyEffect s { s with error := m, isBusy := false }
        = { s with error := m, isBusy := false } := applyEffect_same s _ rfl
    simp [h]

/-- C6 amended witness at the concrete create-mode state. -/
theorem C6_failure_amended_witness :
    ((submitSaveE (SaveOutcome.err "boom") cC6State).1
        = { cC6State with error := "boom", touched := true, isBusy := false }
      ∧ (submitSaveE (SaveOutcome.err "boom") cC6State).2 ≠ [])
    ∧ (handleDeleteE "n1" true (DelOutcome.err "boom") cC6State).1
        = { cC6State with error := "boom", isBusy := false } :=
  C6_failure_amended cC6State "boom" "n1" (by decide) (Or.inl rfl)

/-- Evaluation of the confirmed successful delete path to an explicit state. -/
theorem handleDelete_ok_fst (s : AppState) (id : String) :
    (handleDeleteE id true DelOutcome.ok s).1
      = applyEffect s
          (if s.selectedId = some id then
            match (s.notes.filter (fun n => decide (n.id ≠ id))).head? with
            | some first =>
              { s with
                error := "", notes := sortNotes (s.notes.filter (fun n => decide (n.id ≠ id))),
                isBusy := false, status := "Deleted.", selectedId := some first.id,
                mode := Mode.view,
                draft := (if first.id ≠ "" then { title := first.title, content := first.content }
                          else EMPTY_DRAFT) }
            | none =>
              { s with
                error := "", notes := sortNotes (s.notes.filter (fun n => decide (n.id ≠ id))),
                isBusy := false, status := "Deleted.", selectedId := none,
                mode := Mode.view, draft := EMPTY_DRAFT }
          else
            { s with
              error := "", notes := sortNotes (s.notes.filter (fun n => decide (n.id ≠ id))),
              isBusy := false, status := "Deleted." }) := rfl

/-- C5: a confirmed delete whose adapter call succeeds removes every note
with the deleted id and stores the re-sorted remainder; when the deleted
note was the selected one, the selection moves to the first remaining note
in sort order, and when nothing remains the result is an empty collection
with no selection, view mode and an empty draft.  The sortedness hypothesis
is the collection invariant: the local collection is always stored sorted. -/
theorem C5_delete_selected (s : AppState) (id : String)
    (hs : List.Sorted tsGE s.notes) :
    ((handleDeleteE id true DelOutcome.ok s).1.notes
        = sortNotes (s.notes.filter (fun n => decide (n.id ≠ id))))
    ∧ (∀ n, n ∈ (handleDeleteE id true DelOutcome.ok s).1.notes → n.id ≠ id)
    ∧ (s.selectedId = some id →
        (handleDeleteE id true DelOutcome.ok s).1.selectedId
          = ((sortNotes (s.notes.filter (fun n => decide (n.id ≠ id)))).head?).map UiNote.id)
    ∧ (s.selectedId = some id → s.notes.filter (fun n => decide (n.id ≠ id)) = [] →
        (handleDeleteE id true DelOutcome.ok s).1.notes = []
        ∧ (handleDeleteE id true DelOutcome.ok s).1.selectedId = none
        ∧ (handleDeleteE id true DelOutcome.ok s).1.mode = Mode.view
        ∧ (handleDeleteE id true DelOutcome.ok s).1.draft = EMPTY_DRAFT) := by
  have hsf : List.Sorted tsGE (s.notes.filter (fun n => decide (n.id ≠ id))) := hs.filter _
  have hso : sortNotes (s.notes.filter (fun n => decide (n.id ≠ id)))
      = s.notes.filter (fun n => decide (n.id ≠ id)) := hsf.insertionSort_eq
  have hnotes : (handleDeleteE id true DelOutcome.ok s).1.notes
      = sortNotes (s.notes.filter (fun n => decide (n.id ≠ id))) := by
    rw [handleDelete_ok_fst, applyEffect_notes]
    by_cases hsel : s.selectedId = some id
    · rw [if_pos hsel]
      cases (s.notes.filter (fun n => decide (n.id ≠ id))).head? <;> rfl
    · rw [if_neg hsel]
  refine ⟨hnotes, ?_, ?_, ?_⟩
  · intro n hn
    rw [hnotes] at hn
    have hn2 : n ∈ s.notes.filter (fun n => decide (n.id ≠ id)) := by
      simpa [sortNotes] using hn
    have := List.of_mem_filter hn2
    simpa using this
  · intro hsel
    rw [handleDelete_ok_fst, applyEffect_selectedId, if_pos hsel, hso]
    cases (s.notes.filter (fun n => decide (n.id ≠ id))).head? <;> rfl
  · intro hsel hrem
    rw [handleDelete_ok_fst, if_pos hsel, hrem, applyEffect_of_none]
    · exact ⟨rfl, rfl, rfl, rfl⟩
    · rfl

/-- C5 witness: a sorted two-note collection with the first note selected;
deleting it moves the selection to the remaining note, and a second
application of the theorem at a singleton collection checks the empty
outcome. -/
theorem C5_delete_selected_witness :
    ((handleDeleteE "n1" true DelOutcome.ok
        { notes := [{ id := "n1", title := "T", content := "C" },
            { id := "n2", title := "U", content := "D" }],
          selectedId := some "n1", mode := Mode.view, draft := { title := "T", content := "C" },
          touched := false, isBusy := false, error := "", status := "" }).1.selectedId
      = some "n2")
    ∧ ((handleDeleteE "n1" true DelOutcome.ok
        { notes := [{ id := "n1", title := "T", content := "C" }],
          selectedId := some "n1", mode := Mode.view, draft := { title := "T", content := "C" },
          touched := false, isBusy := false, error := "", status := "" }).1.notes = []
      ∧ (handleDeleteE "n1" true DelOutcome.ok
        { notes := [{ id := "n1", title := "T", content := "C" }],
          selectedId := some "n1", mode := Mode.view, draft := { title := "T", content := "C" },
          touched := false, isBusy := false, error := "", status := "" }).1.selectedId = none) := by
  constructor
  · have h := C5_delete_selected
      { notes := [{ id := "n1", title := "T", content := "C" },
          { id := "n2", title := "U", content := "D" }],
        selectedId := some "n1", mode := Mode.view, draft := { title := "T", content := "C" },
        touched := false, isBusy := false, error := "", status := "" } "n1" (by decide)
    have h3 := h.2.2.1 rfl
    rw [h3]
    decide
  · have h := C5_delete_selected
      { notes := [{ id := "n1", title := "T", content := "C" }],
        selectedId := some "n1", mode := Mode.view, draft := { title := "T", content := "C" },
        touched := false, isBusy := false, error := "", status := "" } "n1" (by decide)
    have h4 := h.2.2.2 rfl (by decide)
    exact ⟨h4.1, h4.2.1⟩

/-- Invariant core: in every reachable state an empty selection implies an
empty collection. -/
theorem selInvAux (s : AppState) (h : Reachable s) :
    s.selectedId = none → s.notes = [] := by
  induction h with
  | boot =>
    intro _
    rfl
  | loadOk items =>
    simp only [loadApply]
    rw [applyEffect_selectedId, applyEffect_notes]
    cases sortNotes items with
    | nil => intro _; rfl
    | cons a as =>
      intro hnone
      simp at hnone
  | loadErr msg =>
    intro _
    rfl
  | @select s1 id hr hmem ih =>
    simp only [selectOp]
    rw [applyEffect_selectedId]
    intro hnone
    simp at hnone
  | @create s1 hr hb ih =>
    simp only [createOp]
    rw [applyEffect_selectedId, applyEffect_notes]
    intro hnone
    exact ih hnone
  | @edit s1 hr hb hmode ih =>
    cases hsel : selectedNote s1 with
    | none =>
      simp only [editOp, hsel]
      exact ih
    | some sel =>
      simp only [editOp, hsel]
      rw [applyEffect_selectedId, applyEffect_notes]
      intro hnone
      exact ih hnone
  | @cancel s1 hr hb hmode ih =>
    simp only [cancelOp]
    rw [applyEffect_selectedId, applyEffect_notes]
    intro hnone
    exact ih hnone
  | @typeTitle s1 t hr hb hmode hlen ih =>
    simp only [typeTitleOp]
    rw [applyEffect_selectedId, applyEffect_notes]
    intro hnone
    exact ih hnone
  | @typeContent s1 c hr hb hmode ih =>
    simp only [typeContentOp]
    rw [applyEffect_selectedId, applyEffect_notes]
    intro hnone
    exact ih hnone
  | @save s1 out hr hb hmode ih =>
    by_cases hc : canSave s1 = true
    · simp only [submitSaveE, if_pos hc]
      rw [applyEffect_selectedId, applyEffect_notes]
      have hc2 := hc
      simp only [canSave, Bool.and_eq_true, decide_eq_true_eq] at hc2
      have htitle : ¬(jsTrim s1.draft.title = "") := hc2.1.2
      unfold handleSaveRaw
      rw [if_neg htitle]
      cases hm2 : s1.mode with
      | view =>
        intro hnone
        exact ih hnone
      | create =>
        cases out with
        | ok created =>
          intro hnone
          simp at hnone
        | err m =>
          intro hnone
          exact ih hnone
      | edit =>
        cases hsel : selectedNote s1 with
        | none =>
          intro hnone
          exact ih hnone
        | some sel =>
          cases out with
          | ok updated =>
            intro hnone
            have hid : s1.selectedId = none := hnone
            unfold selectedNote at hsel
            rw [hid] at hsel
            simp at hsel
          | err m =>
            intro hnone
            exact ih hnone
    · simp only [submitSaveE, if_neg hc]
      rw [applyEffect_selectedId, applyEffect_notes]
      intro hnone
      exact ih hnone
  | @delete s1 id confirmed out hr hb hmem ih =>
    cases confirmed with
    | false =>
      rw [handleDelete_declined]
      intro hnone
      exact ih hnone
    | true =>
      cases out with
      | err m =>
        simp only [handleDeleteE, Bool.not_true]
        simp only [Bool.false_eq_true, if_false]
        rw [applyEffect_selectedId, applyEffect_notes]
        intro hnone
        exact ih hnone
      | ok =>
        rw [handleDelete_ok_fst, applyEffect_selectedId, applyEffect_notes]
        by_cases hsel2 : s1.selectedId = some id
        · rw [if_pos hsel2]
          cases hh : (s1.notes.filter (fun n => decide (n.id ≠ id))).head? with
          | some first =>
            intro hnone
            simp at hnone
          | none =>
            intro _
            have hrem : s1.notes.filter (fun n => decide (n.id ≠ id)) = [] :=
              List.head?_eq_none_iff.mp hh
            rw [hrem]
            rfl
        · rw [if_neg hsel2]
          intro hnone
          have hn2 : s1.notes = [] := ih hnone
          rw [hn2]
          rfl

/-- Collection invariant: in every reachable state the local collection is
stored sorted by the most-recent-activity relation; this justifies the
sortedness hypothesis of the delete theorem. -/
theorem sortedInvAux (s : AppState) (h : Reachable s) : List.Sorted tsGE s.notes := by
  induction h with
  | boot => exact List.sorted_nil
  | loadOk items =>
    simp only [loadApply]
    rw [applyEffect_notes]
    exact List.sorted_insertionSort tsGE items
  | loadErr msg => exact List.sorted_nil
  | @select s1 id hr hmem ih =>
    simp only [selectOp]
    rw [applyEffect_notes]
    exact ih
  | @create s1 hr hb ih =>
    simp only [createOp]
    rw [applyEffect_notes]
    exact ih
  | @edit s1 hr hb hmode ih =>
    cases hsel : selectedNote s1 with
    | none =>
      simp only [editOp, hsel]
      exact ih
    | some sel =>
      simp only [editOp, hsel]
      rw [applyEffect_notes]
      exact ih
  | @cancel s1 hr hb hmode ih =>
    simp only [cancelOp]
    rw [applyEffect_notes]
    exact ih
  | @typeTitle s1 t hr hb hmode hlen ih =>
    simp only [typeTitleOp]
    rw [applyEffect_notes]
    exact ih
  | @typeContent s1 c hr hb hmode ih =>
    simp only [typeContentOp]
    rw [applyEffect_notes]
    exact ih
  | @save s1 out hr hb hmode ih =>
    by_cases hc : canSave s1 = true
    · simp only [submitSaveE, if_pos hc]
      rw [applyEffect_notes]
      have hc2 := hc
      simp only [canSave, Bool.and_eq_true, decide_eq_true_eq] at hc2
      have htitle : ¬(jsTrim s1.draft.title = "") := hc2.1.2
      unfold handleSaveRaw
      rw [if_neg htitle]
      cases s1.mode with
      | view => exact ih
      | create =>
        cases out with
        | ok created => exact List.sorted_insertionSort tsGE _
        | err m => exact ih
      | edit =>
        cases selectedNote s1 with
        | none => exact ih
        | some sel =>
          cases out with
          | ok updated => exact List.sorted_insertionSort tsGE _
          | err m => exact ih
    · simp only [submitSaveE, if_neg hc]
      rw [applyEffect_notes]
      exact ih
  | @delete s1 id confirmed out hr hb hmem ih =>
    cases confirmed with
    | false =>
      rw [handleDelete_declined]
      exact ih
    | true =>
      cases out with
      | err m =>
        simp only [handleDeleteE, Bool.not_true]
        simp only [Bool.false_eq_true, if_false]
        rw [applyEffect_notes]
        exact ih
      | ok =>
        rw [handleDelete_ok_fst, applyEffect_notes]
        by_cases hsel2 : s1.selectedId = some id
        · rw [if_pos hsel2]
          cases (s1.notes.filter (fun n => decide (n.id ≠ id))).head? <;>
            exact List.sorted_insertionSort tsGE _
        · rw [if_neg hsel2]
          exact List.sorted_insertionSort tsGE _

/-- C7: in every reachable orchestrator state, the selection resolves to at
most one note (any two collection members matching the selected id coincide,
the collection having unique ids per the data model), and the selection is
null only when the note collection is empty. -/
theorem C7_selection_invariant (s : AppState) (h : Reachable s)
    (hids : (s.notes.map UiNote.id).Nodup) :
    (s.selectedId = none → s.notes = [])
    ∧ ∀ a ∈ s.notes, ∀ b ∈ s.notes,
        some a.id = s.selectedId → some b.id = s.selectedId → a = b := by
  refine ⟨selInvAux s h, ?_⟩
  intro a ha b hb hha hhb
  exact List.inj_on_of_nodup_map hids ha hb (Option.some.inj (hha.trans hhb.symm))

/-- C7: note used to build the concrete reachable witness state. -/
def c7Note : UiNote := { id := "n1", title := "T", content := "C" }

/-- C7 witness at the reachable state produced by a one-note initial load. -/
theorem C7_selection_invariant_witness :
    ((loadApply [c7Note]).selectedId = none → (loadApply [c7Note]).notes = [])
    ∧ ∀ a ∈ (loadApply [c7Note]).notes, ∀ b ∈ (loadApply [c7Note]).notes,
        some a.id = (loadApply [c7Note]).selectedId →
        some b.id = (loadApply [c7Note]).selectedId → a = b :=
  C7_selection_invariant (loadApply [c7Note]) (Reachable.loadOk [c7Note]) (by decide)

end NotesApp
